import Mathlib

/-!
Verification development for the photography-portfolio backend.

The repository consists of request handlers (AWS Lambda functions in Python)
over a metadata store (DynamoDB, one record per photo keyed by `photoId`)
and an object store (S3, prefix-based keys).  This file gives a shallow
embedding of the handlers that the claims concern, and proves or refutes
each claim against the embedded code.

Modelling conventions:
* The object store (`S3State`) is the list of keys present in the photos
  bucket; the binary payloads play no role in any claim.  `copy_object`
  fails (NoSuchKey) when the source key is absent, mirroring the only
  source-level failure mode the handlers catch specifically; `delete_object`
  succeeds unconditionally, as S3 deletes do.
* The metadata store (`PhotoDb`) is a list of photo records; `get_item`
  finds the record with the given id, `update_item` rewrites it in place
  (DynamoDB `update_item` upserts, so the bulk handler inserts a fresh
  record when the id is absent).
* `datetime.utcnow()` values are passed in as an explicit `now : String`;
  the handlers that read the clock more than once within one invocation get
  indistinguishable values, so a single parameter stands for all reads.
* The `fileSize`/`mimeType` attributes and the HTTP/CORS header plumbing
  are carried by no claim and are omitted from the record/response models.
-/

namespace Portfolio

/-- The object store: the set (as a list) of keys present in the photos
bucket.  Only key existence matters to the embedded handlers. -/
abbrev S3State := List String

/-- Failure modes of `copy_object` that the handlers distinguish. -/
inductive S3Error where
  | noSuchKey
  deriving DecidableEq

/-- `s3_client.copy_object`: succeeds and adds the destination key when the
source key exists, raises `NoSuchKey` otherwise. -/
def copy_object (s3 : S3State) (src dst : String) : Except S3Error S3State :=
  if s3.contains src then .ok (dst :: s3) else .error .noSuchKey

/-- `s3_client.delete_object`: removes the key; succeeds whether or not the
key was present (S3 semantics). -/
def delete_object (s3 : S3State) (key : String) : S3State :=
  s3.filter (fun k => k ≠ key)

/-- One DynamoDB photo record (attributes used by the handlers; binary
metadata such as file size and MIME type carries no claim and is omitted). -/
structure PhotoRecord where
  photoId : String
  title : String := ""
  description : String := ""
  alt : String := ""
  copyright : String := ""
  gallery : String := ""
  uploadedBy : Option String := none
  status : String := ""
  originalKey : String := ""
  publishedAt : Option String := none
  archivedAt : Option String := none
  createdAt : String := ""
  updatedAt : String := ""
  deriving DecidableEq

/-- The photos table. -/
abbrev PhotoDb := List PhotoRecord

/-- `table.get_item(Key={'photoId': pid})`. -/
def get_item (db : PhotoDb) (pid : String) : Option PhotoRecord :=
  db.find? (fun r => r.photoId = pid)

/-- `table.delete_item(Key={'photoId': pid})`. -/
def delete_item (db : PhotoDb) (pid : String) : PhotoDb :=
  db.filter (fun r => r.photoId ≠ pid)

/-- `table.update_item` on a key known to be present: rewrite the record
with that id using `f` (the update expression), leaving all others alone. -/
def update_existing (db : PhotoDb) (pid : String) (f : PhotoRecord → PhotoRecord) : PhotoDb :=
  db.map (fun r => if r.photoId = pid then f r else r)

/-- `table.put_item`: insert, replacing any record with the same id. -/
def put_item (db : PhotoDb) (r : PhotoRecord) : PhotoDb :=
  r :: db.filter (fun x => x.photoId ≠ r.photoId)

/-- The segment of `s` after the last occurrence of `sep` (all of `s` when
`sep` does not occur): the common core of Python `s.split(sep)[-1]` and
`os.path.basename`. -/
def afterLast (sep : Char) (s : String) : String :=
  ⟨(s.data.reverse.takeWhile (fun c => c ≠ sep)).reverse⟩

/-- `source_key.split('.')[-1]`: the segment after the last dot (the whole
string when there is no dot). -/
def extOf (key : String) : String :=
  afterLast '.' key

/-- `os.path.basename`: the segment after the last slash. -/
def basename (key : String) : String :=
  afterLast '/' key

/-- Uniform handler response: a success payload or an
`{error, errorType}` body with a status code. -/
inductive Resp (α : Type) where
  | ok (statusCode : Nat) (data : α)
  | err (statusCode : Nat) (message : String) (errorType : String)
  deriving DecidableEq

/-- `is_authenticated`: the resolved `Authorization` header (either header
spelling, empty string treated as missing, as Python `or` does) is present
and starts with `Bearer `. -/
def is_authenticated (authHeader : Option String) : Bool :=
  match authHeader with
  | some a => "Bearer ".data.isPrefixOf a.data
  | none => false

/-! ## `update_photo` (terraform/terraform/lambda/update_photo/index.py) -/

/-- Parsed JSON body of an update-photo request; absent fields are `none`. -/
structure UpdateBody where
  title : Option String := none
  description : Option String := none
  alt : Option String := none
  copyright : Option String := none
  status : Option String := none
  deriving DecidableEq

/-- Success payload of `update_photo`. -/
structure UpdateOut where
  photoId : String
  status : String
  updatedAt : String
  deriving DecidableEq

/-- The metadata-field part of the update expression: `updatedAt` always,
plus each of title/description/alt/copyright when present in the body. -/
def applyMetaFields (body : UpdateBody) (now : String) (r : PhotoRecord) : PhotoRecord :=
  { r with
    updatedAt := now
    title := body.title.getD r.title
    description := body.description.getD r.description
    alt := body.alt.getD r.alt
    copyright := body.copyright.getD r.copyright }

/-- `lambda_handler` of `update_photo`: fetch the record, build the update
expression, and on a status change to `published` (resp. `archived`) copy
the binary to `originals/<id>.<ext>` (resp. `archive/<id>.<ext>`) before
writing the metadata update.  Returns the response with the resulting
table and bucket states. -/
def update_photo (db : PhotoDb) (s3 : S3State) (photoId : String)
    (body : UpdateBody) (now : String) : Resp UpdateOut × PhotoDb × S3State :=
  match get_item db photoId with
  | none => (.err 404 "Photo not found" "NotFoundError", db, s3)
  | some item =>
    let currentStatus := item.status
    let newStatus := body.status.getD currentStatus
    if newStatus ≠ currentStatus then
      if newStatus = "published" then
        let sourceKey := item.originalKey
        let destKey := "originals/" ++ photoId ++ "." ++ extOf sourceKey
        match copy_object s3 sourceKey destKey with
        | .error _ => (.err 404 "Source file not found in S3" "NotFoundError", db, s3)
        | .ok s3' =>
          let upd := fun r =>
            { applyMetaFields body now r with
              status := "published", originalKey := destKey, publishedAt := some now }
          (.ok 200 ⟨photoId, newStatus, now⟩, update_existing db photoId upd, s3')
      else if newStatus = "archived" then
        let sourceKey := item.originalKey
        let destKey := "archive/" ++ photoId ++ "." ++ extOf sourceKey
        match copy_object s3 sourceKey destKey with
        | .error _ => (.err 404 "Source file not found in S3" "NotFoundError", db, s3)
        | .ok s3' =>
          let upd := fun r =>
            { applyMetaFields body now r with
              status := "archived", originalKey := destKey, archivedAt := some now }
          (.ok 200 ⟨photoId, newStatus, now⟩, update_existing db photoId upd, s3')
      else
        (.ok 200 ⟨photoId, newStatus, now⟩,
         update_existing db photoId (applyMetaFields body now), s3)
    else
      (.ok 200 ⟨photoId, newStatus, now⟩,
       update_existing db photoId (applyMetaFields body now), s3)

/-! ## `bulk_update_photos` (photography-app/lambda/bulk_update_photos/index.py) -/

/-- Fields the bulk handler is willing to write. -/
def allowed_fields : List String :=
  ["gallery", "status", "title", "description", "alt", "copyright"]

/-- Dictionary lookup in the request's `updates` object. -/
def lookupField (updates : List (String × String)) (k : String) : Option String :=
  (updates.find? (fun p => p.1 = k)).map (fun p => p.2)

/-- The per-record effect of the bulk update expression: each allowed field
present in `updates` is written, `updatedAt` is set, and when the update
sets status to `published`, `publishedAt` is written with
`if_not_exists(publishedAt, now)`. -/
def applyBulk (updates : List (String × String)) (now : String)
    (r : PhotoRecord) : PhotoRecord :=
  let r := match lookupField updates "gallery" with
    | some v => { r with gallery := v } | none => r
  let r := match lookupField updates "status" with
    | some v => { r with status := v } | none => r
  let r := match lookupField updates "title" with
    | some v => { r with title := v } | none => r
  let r := match lookupField updates "description" with
    | some v => { r with description := v } | none => r
  let r := match lookupField updates "alt" with
    | some v => { r with alt := v } | none => r
  let r := match lookupField updates "copyright" with
    | some v => { r with copyright := v } | none => r
  let r := { r with updatedAt := now }
  if lookupField updates "status" = some "published" then
    { r with publishedAt := some (r.publishedAt.getD now) }
  else r

/-- A fresh record as DynamoDB `update_item` creates one when the key is
absent (attributes not written by the expression are simply missing). -/
def emptyPhoto (pid : String) : PhotoRecord := { photoId := pid }

/-- One iteration of the bulk handler's per-id loop: `update_item`, which
rewrites the existing record or upserts a fresh one. -/
def bulkApplyOne (updates : List (String × String)) (now : String)
    (db : PhotoDb) (pid : String) : PhotoDb :=
  if (get_item db pid).isSome then
    update_existing db pid (applyBulk updates now)
  else
    put_item db (applyBulk updates now (emptyPhoto pid))

/-- Success payload of `bulk_update_photos`. -/
structure BulkOut where
  succeeded : List String
  failed : List String
  deriving DecidableEq

/-- `lambda_handler` of `bulk_update_photos`: require a bearer credential,
validate `photoIds` (non-empty, at most 100) and `updates` (non-empty),
then apply the shared update expression to every listed id.  In the model
the metadata store never throws, so the failed list is empty. -/
def bulk_update_photos (db : PhotoDb) (authHeader : Option String)
    (photoIds : List String) (updates : List (String × String)) (now : String) :
    Resp BulkOut × PhotoDb :=
  if ¬ is_authenticated authHeader then
    (.err 401 "Authentication required" "UnauthorizedError", db)
  else if photoIds.isEmpty then
    (.err 400 "photoIds must be a non-empty array" "ValidationError", db)
  else if updates.isEmpty then
    (.err 400 "updates must be a non-empty object" "ValidationError", db)
  else if photoIds.length > 100 then
    (.err 400 "Maximum 100 photos per batch. Please select fewer photos." "ValidationError", db)
  else
    (.ok 200 ⟨photoIds, []⟩, photoIds.foldl (bulkApplyOne updates now) db)

/-! ## `delete_photo` (photography-app/lambda/delete_photo/index.py) -/

/-- Success payload of `delete_photo`. -/
structure DeleteOut where
  photoId : String
  status : String
  stamp : String
  deriving DecidableEq

/-- `lambda_handler` of `delete_photo`: an archived photo is permanently
deleted (its current key, plus best-effort the `thumbnails/` and `display/`
variants named after the key's basename, plus the record); any other photo
is soft-deleted by copying its binary to `archive/<id>.<ext>`, best-effort
deleting the source key, and marking the record archived. -/
def delete_photo (db : PhotoDb) (s3 : S3State) (photoId now : String) :
    Resp DeleteOut × PhotoDb × S3State :=
  match get_item db photoId with
  | none => (.err 404 "Photo not found" "NotFoundError", db, s3)
  | some item =>
    let sourceKey := item.originalKey
    let filename := basename sourceKey
    let thumbnailKey := "thumbnails/" ++ filename
    let displayKey := "display/" ++ filename
    if item.status = "archived" then
      let s3a := delete_object s3 sourceKey
      let s3b := delete_object s3a thumbnailKey
      let s3c := delete_object s3b displayKey
      (.ok 200 ⟨photoId, "deleted", now⟩, delete_item db photoId, s3c)
    else
      let destKey := "archive/" ++ photoId ++ "." ++ extOf sourceKey
      match copy_object s3 sourceKey destKey with
      | .error _ => (.err 404 "Source file not found in S3" "NotFoundError", db, s3)
      | .ok s3' =>
        let s3'' := delete_object s3' sourceKey
        (.ok 200 ⟨photoId, "archived", now⟩,
         update_existing db photoId (fun r =>
           { r with status := "archived", originalKey := destKey,
                    archivedAt := some now, updatedAt := now }),
         s3'')

/-! ## `get_photo` / `list_photos` -/

/-- `strip_sensitive_fields`: drop the uploader identity for
unauthenticated callers. -/
def strip_sensitive_fields (isAuth : Bool) (photo : PhotoRecord) : PhotoRecord :=
  if isAuth then photo else { photo with uploadedBy := none }

/-- `generate_cloudfront_url`: `None` for a falsy key, else the CloudFront
URL for that key. -/
def generate_cloudfront_url (key domain : String) : Option String :=
  if key = "" then none else some ("https://" ++ domain ++ "/" ++ key)

/-- A photo as returned in a response body: the record plus the URLs the
handler may have attached. -/
structure PhotoOut where
  record : PhotoRecord
  thumbnailUrl : Option String := none
  fullResUrl : Option String := none
  deriving DecidableEq

/-- `enrich_photo_with_urls` of the photography-app handlers: thumbnail URL
from `thumbnails/<basename>`, full-resolution URL from
`display/<basename>`. -/
def enrich_photo_app (cloudfront : Option String) (photo : PhotoRecord) : PhotoOut :=
  match cloudfront with
  | some d =>
    { record := photo,
      thumbnailUrl := generate_cloudfront_url ("thumbnails/" ++ basename photo.originalKey) d,
      fullResUrl := generate_cloudfront_url ("display/" ++ basename photo.originalKey) d }
  | none => { record := photo }

/-- `enrich_photo_with_urls` of the legacy terraform handlers: both URLs
point at the current key itself. -/
def enrich_photo_legacy (cloudfront : Option String) (photo : PhotoRecord) : PhotoOut :=
  match cloudfront with
  | some d =>
    { record := photo,
      thumbnailUrl := generate_cloudfront_url photo.originalKey d,
      fullResUrl := generate_cloudfront_url photo.originalKey d }
  | none => { record := photo }

/-- `lambda_handler` of the photography-app `get_photo`: unauthenticated
callers are rejected unless the photo is published, and have the uploader
identity stripped from the response. -/
def get_photo_app (db : PhotoDb) (authHeader : Option String)
    (cloudfront : Option String) (photoId : String) : Resp PhotoOut :=
  let isAuth := is_authenticated authHeader
  match get_item db photoId with
  | none => .err 404 "Photo not found" "NotFoundError"
  | some photo =>
    if ¬ isAuth ∧ photo.status ≠ "published" then
      .err 403 "Authentication required to view non-published photos" "ForbiddenError"
    else
      let enriched := enrich_photo_app cloudfront photo
      .ok 200 { enriched with record := strip_sensitive_fields isAuth enriched.record }

/-- `lambda_handler` of the legacy terraform `get_photo`: no authentication
check and no field stripping. -/
def get_photo_legacy (db : PhotoDb) (cloudfront : Option String)
    (photoId : String) : Resp PhotoOut :=
  match get_item db photoId with
  | none => .err 404 "Photo not found" "NotFoundError"
  | some photo => .ok 200 (enrich_photo_legacy cloudfront photo)

/-- Success payload of `list_photos`. -/
structure ListOut where
  photos : List PhotoOut
  count : Nat
  deriving DecidableEq

/-- The `status-uploadDate-index` query: the records with the requested
status, at most `limit` of them (result order carries no claim). -/
def queryByStatus (db : PhotoDb) (status : String) (limit : Nat) : List PhotoRecord :=
  (db.filter (fun r => r.status = status)).take limit

/-- `lambda_handler` of the photography-app `list_photos` (`status` and
`limit` are the parsed query parameters, defaults `"published"` and 50):
validates the status value, restricts unauthenticated callers to
`published`, queries, enriches, and strips sensitive fields. -/
def list_photos_app (db : PhotoDb) (authHeader : Option String)
    (cloudfront : Option String) (status : String) (limit : Nat) : Resp ListOut :=
  let isAuth := is_authenticated authHeader
  if ¬ (status = "pending" ∨ status = "published" ∨ status = "archived") then
    .err 400 "Invalid status. Must be: pending, published, or archived" "ValidationError"
  else if ¬ isAuth ∧ status ≠ "published" then
    .err 403 "Authentication required to view non-published photos" "ForbiddenError"
  else
    let photos := (queryByStatus db status limit).map (enrich_photo_app cloudfront)
    let photos := photos.map (fun p =>
      { p with record := strip_sensitive_fields isAuth p.record })
    .ok 200 ⟨photos, photos.length⟩

/-! ## `create_photo` (photography-app/lambda/create_photo/index.py) -/

/-- A hexadecimal digit, either case (the pattern compiles with
`re.IGNORECASE`). -/
def isHexChar (c : Char) : Bool :=
  c.isDigit || (('a' ≤ c) && (c ≤ 'f')) || (('A' ≤ c) && (c ≤ 'F'))

/-- Split a character list at every occurrence of `sep`. -/
def splitChars (sep : Char) : List Char → List (List Char)
  | [] => [[]]
  | c :: cs =>
    match splitChars sep cs with
    | [] => [[]]
    | g :: gs => if c = sep then [] :: g :: gs else (c :: g) :: gs

/-- `UUID_PATTERN.match`: the exact anchored pattern
`[0-9a-f]{8}-[0-9a-f]{4}-4[0-9a-f]{3}-[89ab][0-9a-f]{3}-[0-9a-f]{12}`,
case-insensitive. -/
def matchesUuidV4 (s : String) : Bool :=
  match splitChars '-' s.data with
  | [a, b, c, d, e] =>
    (a.length == 8) && (b.length == 4) && (c.length == 4) &&
    (d.length == 4) && (e.length == 12) &&
    a.all isHexChar && b.all isHexChar && c.all isHexChar &&
    d.all isHexChar && e.all isHexChar &&
    (match c with | x :: _ => x == '4' | [] => false) &&
    (match d with | x :: _ => ['8', '9', 'a', 'b', 'A', 'B'].contains x | [] => false)
  | _ => false

/-- Parsed JSON body of a create-photo request. -/
structure CreateBody where
  photoId : Option String := none
  title : Option String := none
  alt : Option String := none
  description : Option String := none
  gallery : Option String := none
  deriving DecidableEq

/-- Python truthiness test on an optional string field: falsy when absent
or empty. -/
def falsy (o : Option String) : Bool :=
  match o with
  | none => true
  | some s => s == ""

/-- The `head_object` probe loop: the first of
`uploads/<id>.{jpg,jpeg,png,webp}` present in the bucket. -/
def findUpload (s3 : S3State) (pid : String) : Option String :=
  (["jpg", "jpeg", "png", "webp"].map (fun e => "uploads/" ++ pid ++ "." ++ e)).find?
    (fun k => s3.contains k)

/-- Success payload of `create_photo`. -/
structure CreateOut where
  photoId : String
  status : String
  createdAt : String
  deriving DecidableEq

/-- `lambda_handler` of `create_photo`: require `photoId`/`title`/`alt`
truthy, validate the UUID v4 pattern, locate the uploaded binary under
`uploads/`, and insert the pending record. -/
def create_photo (db : PhotoDb) (s3 : S3State) (body : CreateBody)
    (uploadedBy now copyrightYear : String) : Resp CreateOut × PhotoDb :=
  if falsy body.photoId || falsy body.title || falsy body.alt then
    (.err 400 "Missing required fields" "ValidationError", db)
  else
    let pid := body.photoId.getD ""
    if ¬ matchesUuidV4 pid then
      (.err 400 "Invalid photoId format (must be UUID v4)" "ValidationError", db)
    else
      match findUpload s3 pid with
      | none => (.err 404 "Uploaded file not found in S3" "NotFoundError", db)
      | some key =>
        let item : PhotoRecord :=
          { photoId := pid,
            title := body.title.getD "",
            description := body.description.getD "",
            alt := body.alt.getD "",
            copyright := "(C) " ++ copyrightYear ++ " Cindy Ashley",
            gallery := body.gallery.getD "",
            uploadedBy := some uploadedBy,
            status := "pending",
            originalKey := key,
            createdAt := now,
            updatedAt := now }
        (.ok 201 ⟨pid, "pending", now⟩, put_item db item)

/-! ## `get_site_settings` (photography-app/lambda/get_site_settings/index.py) -/

/-- The free-form `data` payload of a site-setting record. -/
structure SettingData where
  heroPhotoId : Option String := none
  heroImageUrl : Option String := none
  title : String := ""
  subtitle : String := ""
  sections : List (String × String) := []
  deriving DecidableEq

/-- One record of the site-settings table. -/
structure SettingRecord where
  settingId : String
  data : SettingData
  updatedAt : Option String := none
  deriving DecidableEq

/-- Response payload of `get_site_settings`. -/
structure SettingsOut where
  settingId : String
  data : SettingData
  updatedAt : Option String := none
  deriving DecidableEq

/-- The built-in hero defaults returned when no `hero` record exists. -/
def heroDefaults : SettingsOut :=
  { settingId := "hero",
    data := { title := "Photography Portfolio",
              subtitle := "Capturing life one frame at a time" } }

/-- The built-in about defaults returned when no `about` record exists. -/
def aboutDefaults : SettingsOut :=
  { settingId := "about",
    data := { title := "About Me",
              subtitle := "Telling stories through the lens",
              sections := [
                ("My Journey",
                 "Photography has been my passion for over a decade. What started as a hobby quickly became a way of seeing and experiencing the world.\n\nEvery photograph is an opportunity to freeze time, to capture the fleeting beauty of a moment that will never come again."),
                ("My Approach",
                 "My photography style blends technical precision with artistic intuition. I believe that the best photographs are those that evoke emotion and tell a story.\n\nI work primarily with natural light and believe in minimal post-processing, letting the authentic beauty of each moment shine through.")] } }

/-- Truthiness of the stored `heroPhotoId` reference. -/
def truthyRef (o : Option String) : Bool :=
  match o with
  | some p => p != ""
  | none => false

/-- Resolve a hero photo reference to a CloudFront URL: the referenced
record's current key when it exists, cleared when the photo is gone. -/
def resolveHero (photos : PhotoDb) (cloudfront : String) (d : SettingData) : SettingData :=
  match d.heroPhotoId with
  | some pid =>
    match get_item photos pid with
    | some photo =>
      { d with heroImageUrl := some ("https://" ++ cloudfront ++ "/" ++ photo.originalKey) }
    | none => { d with heroImageUrl := none }
  | none => d

/-- `lambda_handler` of `get_site_settings`: a stored record is returned
(with the hero reference resolved for the `hero` and `about` ids); an
absent record yields built-in defaults for `hero` and `about` and
`NotFoundError` for every other id. -/
def get_site_settings (settings : List SettingRecord) (photos : PhotoDb)
    (cloudfront : String) (settingId : String) : Resp SettingsOut :=
  match settings.find? (fun r => r.settingId = settingId) with
  | none =>
    if settingId = "hero" then .ok 200 heroDefaults
    else if settingId = "about" then .ok 200 aboutDefaults
    else .err 404 "Setting not found" "NotFoundError"
  | some item =>
    let d := item.data
    let d := if settingId = "hero" ∧ truthyRef d.heroPhotoId then
        resolveHero photos cloudfront d
      else d
    let d := if settingId = "about" ∧ truthyRef d.heroPhotoId then
        resolveHero photos cloudfront d
      else d
    .ok 200 ⟨settingId, d, item.updatedAt⟩

/-! ## `resize_image` (photography-app/lambda/generate_thumbnail/index.py)

Only the dimension arithmetic carries a claim; pixel payloads, mode
flattening (which preserves `img.size`) and the encode step are not
modelled.  The Python code computes `int(max_width * (oh / ow))` in
floating point; the model computes the exact truncated quotient
`max_width * oh / ow` in `Nat`. -/

/-- The decoded dimensions of a raster image. -/
structure ImageDims where
  width : Nat
  height : Nat
  deriving DecidableEq

/-- The dimension behaviour of `resize_image`: a source no wider than
`max_width` keeps its dimensions; a wider source is scaled to `max_width`
with height `int(max_width * original_height / original_width)`. -/
def resize_image (img : ImageDims) (max_width : Nat) : ImageDims :=
  if img.width ≤ max_width then img
  else ⟨max_width, max_width * img.height / img.width⟩

end Portfolio

namespace Portfolio

/-- A sample pending record used in concrete checks. -/
def pendingRec : PhotoRecord :=
  { photoId := "p1", title := "T", alt := "A", uploadedBy := some "admin@example.com",
    status := "pending", originalKey := "uploads/p1.jpg",
    createdAt := "t0", updatedAt := "t0" }

/-- A sample published record used in concrete checks. -/
def publishedRec : PhotoRecord :=
  { photoId := "p1", title := "T", alt := "A", uploadedBy := some "admin@example.com",
    status := "published", originalKey := "originals/p1.jpg",
    publishedAt := some "tp", createdAt := "t0", updatedAt := "t0" }

/-- A sample archived record used in concrete checks. -/
def archivedRec : PhotoRecord :=
  { photoId := "p1", title := "T", alt := "A", uploadedBy := some "admin@example.com",
    status := "archived", originalKey := "archive/p1.jpg",
    publishedAt := some "tp", archivedAt := some "ta",
    createdAt := "t0", updatedAt := "t0" }

example :
    (update_photo [pendingRec] ["uploads/p1.jpg"] "p1" { status := some "published" } "t1").2.2 =
      ["originals/p1.jpg", "uploads/p1.jpg"] := by decide

example :
    (get_item (update_photo [pendingRec] ["uploads/p1.jpg"] "p1"
        { status := some "published" } "t1").2.1 "p1").map (fun r => r.originalKey) =
      some "originals/p1.jpg" := by decide

/-! ## Store lemmas -/

theorem find?_filter_of_imp {α : Type} (l : List α) (p q : α → Bool)
    (h : ∀ x, p x = true → q x = true) : (l.filter q).find? p = l.find? p := by
  induction l with
  | nil => rfl
  | cons a l ih =>
    by_cases hq : q a = true
    · simp only [List.filter_cons, hq, if_true, List.find?]
      cases hp : p a
      · simpa [hp] using ih
      · rfl
    · have hp : p a = false := by
        cases hp : p a
        · rfl
        · exact absurd (h a hp) hq
      simp only [List.filter_cons, hq, if_false, List.find?, hp]
      simpa [hp] using ih

theorem get_item_delete_item (db : PhotoDb) (pid : String) :
    get_item (delete_item db pid) pid = none := by
  induction db with
  | nil => rfl
  | cons a l ih =>
    by_cases ha : a.photoId = pid
    · simp only [delete_item, List.filter_cons, ha] at ih ⊢
      rw [if_neg (by simp)]
      exact ih
    · simp only [delete_item, List.filter_cons, ha] at ih ⊢
      rw [if_pos (by simp [ha])]
      simp only [get_item, List.find?] at ih ⊢
      rw [show decide (a.photoId = pid) = false by simp [ha]]
      exact ih

theorem get_item_update_existing (db : PhotoDb) (q pid : String)
    (f : PhotoRecord → PhotoRecord) (hf : ∀ x, (f x).photoId = x.photoId) :
    get_item (update_existing db q f) pid =
      if q = pid then (get_item db pid).map f else get_item db pid := by
  induction db with
  | nil => by_cases h : q = pid <;> simp [get_item, update_existing, h]
  | cons a l ih =>
    by_cases hq : q = pid
    · subst hq
      by_cases ha : a.photoId = q
      · simp [get_item, update_existing, List.find?, ha, hf]
      · simp only [get_item, update_existing, List.map_cons, List.find?, ha, if_false] at ih ⊢
        simpa [ha] using ih
    · by_cases ha : a.photoId = q
      · have hne : a.photoId ≠ pid := ha ▸ hq
        have hne' : (f a).photoId ≠ pid := by rw [hf]; exact hne
        simp only [get_item, update_existing, List.map_cons, List.find?, ha, if_true] at ih ⊢
        simpa [hne, hne', hq] using ih
      · simp only [get_item, update_existing, List.map_cons, List.find?, ha, if_false] at ih ⊢
        by_cases hpa : a.photoId = pid
        · simp [hpa, hq]
        · simpa [hpa, hq] using ih

theorem not_mem_delete_object_self (s3 : S3State) (k : String) :
    k ∉ delete_object s3 k := by
  simp [delete_object, List.mem_filter]

theorem not_mem_delete_object (s3 : S3State) (x k : String) (h : x ∉ s3) :
    x ∉ delete_object s3 k := by
  intro hx
  exact h (List.mem_filter.mp hx).1

theorem mem_delete_object_of_ne (s3 : S3State) (x k : String)
    (hx : x ∈ s3) (hne : x ≠ k) : x ∈ delete_object s3 k := by
  refine List.mem_filter.mpr ⟨hx, by simp [hne]⟩

theorem contains_eq_true_of_mem (s3 : S3State) (x : String) (h : x ∈ s3) :
    s3.contains x = true := by
  exact List.elem_eq_true_of_mem h

theorem contains_eq_false_of_not_mem (s3 : S3State) (x : String) (h : x ∉ s3) :
    s3.contains x = false := by
  cases hc : s3.contains x
  · rfl
  · exact absurd (List.mem_of_elem_eq_true hc) h

theorem get_item_put_item_ne (db : PhotoDb) (rNew : PhotoRecord) (pid : String)
    (h : rNew.photoId ≠ pid) :
    get_item (put_item db rNew) pid = get_item db pid := by
  have : get_item (put_item db rNew) pid =
      (db.filter (fun x => x.photoId ≠ rNew.photoId)).find? (fun r => r.photoId = pid) := by
    simp [get_item, put_item, List.find?, h]
  rw [this, find?_filter_of_imp]
  · rfl
  · intro x hx
    have hxp : x.photoId = pid := by simpa using hx
    simp only [hxp, decide_eq_true_eq, ne_eq, decide_not]
    simp only [Bool.not_eq_true', decide_eq_false_iff_not]
    exact fun hc => h hc.symm


/-! ## Claim theorems -/

/-- C3: for every decodable image (positive width) and positive target
width, `resize_image` keeps the dimensions when the source is no wider
than the target, and otherwise produces width equal to the target and
height within one pixel of `round(target_width * original_height /
original_width)`. -/
theorem C3_resize_image_dims (ow oh maxw : Nat) (hw : 0 < ow) (_hm : 0 < maxw) :
    (ow ≤ maxw → resize_image ⟨ow, oh⟩ maxw = ⟨ow, oh⟩) ∧
    (maxw < ow →
      (resize_image ⟨ow, oh⟩ maxw).width = maxw ∧
      |((resize_image ⟨ow, oh⟩ maxw).height : ℤ) -
          round (((maxw : ℚ) * (oh : ℚ)) / (ow : ℚ))| ≤ 1) := by
  constructor
  · intro hle
    simp [resize_image, hle]
  · intro hlt
    have hnle : ¬ (ow ≤ maxw) := not_le.mpr hlt
    refine ⟨by simp [resize_image, hnle], ?_⟩
    have hh : (resize_image ⟨ow, oh⟩ maxw).height = maxw * oh / ow := by
      simp [resize_image, hnle]
    rw [hh]
    set q : ℚ := ((maxw : ℚ) * (oh : ℚ)) / (ow : ℚ) with hq
    set h : Nat := maxw * oh / ow with hdiv
    have hd : (0 : ℚ) < (ow : ℚ) := by exact_mod_cast hw
    have h1 : (h : ℚ) ≤ q := by
      rw [hq, le_div_iff₀ hd]
      have := Nat.div_mul_le_self (maxw * oh) ow
      exact_mod_cast this
    have h2 : q < (h : ℚ) + 1 := by
      rw [hq, div_lt_iff₀ hd]
      have hnat : maxw * oh < (h + 1) * ow :=
        (Nat.div_lt_iff_lt_mul hw).mp (Nat.lt_succ_self h)
      exact_mod_cast hnat
    have hround : |q - (round q : ℚ)| ≤ 1 / 2 := abs_sub_round q
    have htri : |(h : ℚ) - (round q : ℚ)| < 3 / 2 := by
      have hstep : |(h : ℚ) - q| < 1 := by
        rw [abs_lt]
        constructor <;> linarith
      calc |(h : ℚ) - (round q : ℚ)| ≤ |(h : ℚ) - q| + |q - (round q : ℚ)| :=
            abs_sub_le _ _ _
        _ < 1 + 1 / 2 := by linarith
        _ = 3 / 2 := by norm_num
    have hz : |(h : ℤ) - round q| < 2 := by
      have hcast : ((|(h : ℤ) - round q| : ℤ) : ℚ) = |(h : ℚ) - (round q : ℚ)| := by
        push_cast
        rfl
      have : ((|(h : ℤ) - round q| : ℤ) : ℚ) < 2 := by
        rw [hcast]; linarith
      exact_mod_cast this
    omega

/-- C3 witness: a 4000×3000 source resized to max width 400. -/
theorem C3_resize_image_dims_witness :
    (resize_image ⟨4000, 3000⟩ 400).width = 400 ∧
    |((resize_image ⟨4000, 3000⟩ 400).height : ℤ) -
        round (((400 : ℚ) * (3000 : ℚ)) / (4000 : ℚ))| ≤ 1 :=
  (C3_resize_image_dims 4000 3000 400 (by norm_num) (by norm_num)).2 (by norm_num)

/-- C10: when no site-setting record exists for the requested id, the
handler returns 200 with built-in defaults for `hero` and `about`, and a
404 `NotFoundError` for every other id. -/
theorem C10_site_settings_defaults (settings : List SettingRecord) (photos : PhotoDb)
    (cloudfront : String) (sid : String)
    (habs : settings.find? (fun r => r.settingId = sid) = none) :
    (sid = "hero" →
      get_site_settings settings photos cloudfront sid = .ok 200 heroDefaults) ∧
    (sid = "about" →
      get_site_settings settings photos cloudfront sid = .ok 200 aboutDefaults) ∧
    (sid ≠ "hero" → sid ≠ "about" →
      get_site_settings settings photos cloudfront sid =
        .err 404 "Setting not found" "NotFoundError") := by
  unfold get_site_settings
  rw [habs]
  refine ⟨fun h => by simp [h], fun h => by simp [h], fun h1 h2 => by simp [h1, h2]⟩

/-- C10 witness: an empty settings table, queried for `hero`, `about` and
an unknown id. -/
theorem C10_site_settings_defaults_witness :
    get_site_settings [] [] "cf" "hero" = .ok 200 heroDefaults ∧
    get_site_settings [] [] "cf" "about" = .ok 200 aboutDefaults ∧
    get_site_settings [] [] "cf" "contact" =
      .err 404 "Setting not found" "NotFoundError" :=
  ⟨(C10_site_settings_defaults [] [] "cf" "hero" rfl).1 rfl,
   (C10_site_settings_defaults [] [] "cf" "about" rfl).2.1 rfl,
   (C10_site_settings_defaults [] [] "cf" "contact" rfl).2.2 (by decide) (by decide)⟩

/-- C8: an authenticated bulk update naming more than 100 photos is
rejected with a `ValidationError` and mutates no record. -/
theorem C8_bulk_limit (db : PhotoDb) (ah : Option String) (ids : List String)
    (updates : List (String × String)) (now : String)
    (hauth : is_authenticated ah = true) (hlen : ids.length > 100) :
    ∃ msg, bulk_update_photos db ah ids updates now =
      (.err 400 msg "ValidationError", db) := by
  have hne : ids.isEmpty = false := by
    cases ids with
    | nil => simp at hlen
    | cons a l => rfl
  by_cases hu : updates.isEmpty
  · exact ⟨"updates must be a non-empty object",
      by simp [bulk_update_photos, hauth, hne, hu]⟩
  · exact ⟨"Maximum 100 photos per batch. Please select fewer photos.",
      by simp [bulk_update_photos, hauth, hne, hu, hlen]⟩

/-- C8 witness: 101 identifiers with a status update. -/
theorem C8_bulk_limit_witness :
    ∃ msg, bulk_update_photos [pendingRec] (some "Bearer t")
        (List.replicate 101 "p1") [("status", "published")] "t2" =
      (.err 400 msg "ValidationError", [pendingRec]) :=
  C8_bulk_limit [pendingRec] (some "Bearer t") (List.replicate 101 "p1")
    [("status", "published")] "t2" (by decide) (by simp)

/-- C4: deleting an archived photo removes the record and its current,
`thumbnails/` and `display/` keys; deleting a non-archived photo moves the
binary to the `archive/` key, marks the record archived, and leaves every
other key (in particular the `thumbnails/` and `display/` variants) in
place. -/
theorem C4_delete_photo (db : PhotoDb) (s3 : S3State) (pid now : String)
    (r : PhotoRecord) (hget : get_item db pid = some r) :
    (r.status = "archived" →
      (delete_photo db s3 pid now).1 = .ok 200 ⟨pid, "deleted", now⟩ ∧
      get_item (delete_photo db s3 pid now).2.1 pid = none ∧
      r.originalKey ∉ (delete_photo db s3 pid now).2.2 ∧
      ("thumbnails/" ++ basename r.originalKey) ∉ (delete_photo db s3 pid now).2.2 ∧
      ("display/" ++ basename r.originalKey) ∉ (delete_photo db s3 pid now).2.2) ∧
    (r.status ≠ "archived" → r.originalKey ∈ s3 →
      (delete_photo db s3 pid now).1 = .ok 200 ⟨pid, "archived", now⟩ ∧
      (∃ r', get_item (delete_photo db s3 pid now).2.1 pid = some r' ∧
        r'.status = "archived" ∧
        r'.originalKey = "archive/" ++ pid ++ "." ++ extOf r.originalKey) ∧
      ("archive/" ++ pid ++ "." ++ extOf r.originalKey ≠ r.originalKey →
        ("archive/" ++ pid ++ "." ++ extOf r.originalKey) ∈ (delete_photo db s3 pid now).2.2) ∧
      (∀ k, k ∈ s3 → k ≠ r.originalKey → k ∈ (delete_photo db s3 pid now).2.2)) := by
  constructor
  · intro hst
    have hrun : delete_photo db s3 pid now =
        (.ok 200 ⟨pid, "deleted", now⟩, delete_item db pid,
         delete_object (delete_object (delete_object s3 r.originalKey)
           ("thumbnails/" ++ basename r.originalKey))
           ("display/" ++ basename r.originalKey)) := by
      simp [delete_photo, hget, hst]
    rw [hrun]
    refine ⟨rfl, get_item_delete_item db pid, ?_, ?_, ?_⟩
    · exact not_mem_delete_object _ _ _
        (not_mem_delete_object _ _ _ (not_mem_delete_object_self _ _))
    · exact not_mem_delete_object _ _ _ (not_mem_delete_object_self _ _)
    · exact not_mem_delete_object_self _ _
  · intro hst hmem
    have hcopy : copy_object s3 r.originalKey
        ("archive/" ++ pid ++ "." ++ extOf r.originalKey) =
        .ok (("archive/" ++ pid ++ "." ++ extOf r.originalKey) :: s3) := by
      simp [copy_object, hmem]
    have hrun : delete_photo db s3 pid now =
        (.ok 200 ⟨pid, "archived", now⟩,
         update_existing db pid (fun x =>
           { x with status := "archived",
                    originalKey := "archive/" ++ pid ++ "." ++ extOf r.originalKey,
                    archivedAt := some now, updatedAt := now }),
         delete_object (("archive/" ++ pid ++ "." ++ extOf r.originalKey) :: s3)
           r.originalKey) := by
      simp [delete_photo, hget, hst, hcopy]
    rw [hrun]
    refine ⟨rfl, ?_, ?_, ?_⟩
    · have hgi : get_item (update_existing db pid (fun x =>
          { x with status := "archived",
                   originalKey := "archive/" ++ pid ++ "." ++ extOf r.originalKey,
                   archivedAt := some now, updatedAt := now })) pid =
          some { r with status := "archived",
                        originalKey := "archive/" ++ pid ++ "." ++ extOf r.originalKey,
                        archivedAt := some now, updatedAt := now } := by
        rw [get_item_update_existing db pid pid (fun x =>
              { x with status := "archived",
                       originalKey := "archive/" ++ pid ++ "." ++ extOf r.originalKey,
                       archivedAt := some now, updatedAt := now }) (fun x => rfl),
            if_pos rfl, hget]
        rfl
      exact ⟨_, hgi, rfl, rfl⟩
    · intro hne
      exact mem_delete_object_of_ne _ _ _ (List.mem_cons_self _ _) hne
    · intro k hk hne
      exact mem_delete_object_of_ne _ _ _ (List.mem_cons_of_mem _ hk) hne

/-- C4 witness: an archived record is purged with all three keys; a
pending record is archived with the derived variants preserved. -/
theorem C4_delete_photo_witness :
    ((delete_photo [archivedRec] ["archive/p1.jpg", "thumbnails/p1.jpg", "display/p1.jpg"]
        "p1" "t1").1 = .ok 200 ⟨"p1", "deleted", "t1"⟩ ∧
      get_item (delete_photo [archivedRec]
        ["archive/p1.jpg", "thumbnails/p1.jpg", "display/p1.jpg"] "p1" "t1").2.1 "p1" = none ∧
      "archive/p1.jpg" ∉ (delete_photo [archivedRec]
        ["archive/p1.jpg", "thumbnails/p1.jpg", "display/p1.jpg"] "p1" "t1").2.2 ∧
      ("thumbnails/" ++ basename "archive/p1.jpg") ∉ (delete_photo [archivedRec]
        ["archive/p1.jpg", "thumbnails/p1.jpg", "display/p1.jpg"] "p1" "t1").2.2 ∧
      ("display/" ++ basename "archive/p1.jpg") ∉ (delete_photo [archivedRec]
        ["archive/p1.jpg", "thumbnails/p1.jpg", "display/p1.jpg"] "p1" "t1").2.2) ∧
    ((delete_photo [pendingRec] ["uploads/p1.jpg", "thumbnails/p1.jpg"] "p1" "t1").1 =
        .ok 200 ⟨"p1", "archived", "t1"⟩ ∧
      (∃ r', get_item (delete_photo [pendingRec]
          ["uploads/p1.jpg", "thumbnails/p1.jpg"] "p1" "t1").2.1 "p1" = some r' ∧
        r'.status = "archived" ∧
        r'.originalKey = "archive/" ++ "p1" ++ "." ++ extOf "uploads/p1.jpg") ∧
      ("archive/" ++ "p1" ++ "." ++ extOf "uploads/p1.jpg" ≠ "uploads/p1.jpg" →
        ("archive/" ++ "p1" ++ "." ++ extOf "uploads/p1.jpg") ∈ (delete_photo [pendingRec]
          ["uploads/p1.jpg", "thumbnails/p1.jpg"] "p1" "t1").2.2) ∧
      (∀ k, k ∈ (["uploads/p1.jpg", "thumbnails/p1.jpg"] : S3State) →
        k ≠ "uploads/p1.jpg" → k ∈ (delete_photo [pendingRec]
          ["uploads/p1.jpg", "thumbnails/p1.jpg"] "p1" "t1").2.2)) :=
  ⟨(C4_delete_photo [archivedRec] ["archive/p1.jpg", "thumbnails/p1.jpg", "display/p1.jpg"]
      "p1" "t1" archivedRec (by decide)).1 rfl,
   (C4_delete_photo [pendingRec] ["uploads/p1.jpg", "thumbnails/p1.jpg"]
      "p1" "t1" pendingRec (by decide)).2 (by decide) (by decide)⟩

/-- C5: when the object-store copy step fails (the source key is absent),
a publish or archive through `update_photo`, and an archive through
`delete_photo`, return an error response with the metadata store and the
bucket left exactly as they were. -/
theorem C5_copy_failure_atomic (db : PhotoDb) (s3 : S3State) (pid now : String)
    (body : UpdateBody) (r : PhotoRecord) (hget : get_item db pid = some r)
    (hmiss : r.originalKey ∉ s3) :
    (body.status = some "published" → r.status ≠ "published" →
      update_photo db s3 pid body now =
        (.err 404 "Source file not found in S3" "NotFoundError", db, s3)) ∧
    (body.status = some "archived" → r.status ≠ "archived" →
      update_photo db s3 pid body now =
        (.err 404 "Source file not found in S3" "NotFoundError", db, s3)) ∧
    (r.status ≠ "archived" →
      delete_photo db s3 pid now =
        (.err 404 "Source file not found in S3" "NotFoundError", db, s3)) := by
  refine ⟨?_, ?_, ?_⟩
  · intro hb hs
    simp [update_photo, hget, hb, Ne.symm hs, copy_object, hmiss]
  · intro hb hs
    simp [update_photo, hget, hb, Ne.symm hs, copy_object, hmiss]
  · intro hs
    simp [delete_photo, hget, hs, copy_object, hmiss]

/-- C5 witness: a pending record whose binary is missing from the bucket;
publish, archive and delete all fail without mutating anything. -/
theorem C5_copy_failure_atomic_witness :
    update_photo [pendingRec] [] "p1" { status := some "published" } "t1" =
      (.err 404 "Source file not found in S3" "NotFoundError", [pendingRec], []) ∧
    update_photo [pendingRec] [] "p1" { status := some "archived" } "t1" =
      (.err 404 "Source file not found in S3" "NotFoundError", [pendingRec], []) ∧
    delete_photo [pendingRec] [] "p1" "t1" =
      (.err 404 "Source file not found in S3" "NotFoundError", [pendingRec], []) :=
  ⟨(C5_copy_failure_atomic [pendingRec] [] "p1" "t1" { status := some "published" }
      pendingRec (by decide) (by decide)).1 rfl (by decide),
   (C5_copy_failure_atomic [pendingRec] [] "p1" "t1" { status := some "archived" }
      pendingRec (by decide) (by decide)).2.1 rfl (by decide),
   (C5_copy_failure_atomic [pendingRec] [] "p1" "t1" { status := some "archived" }
      pendingRec (by decide) (by decide)).2.2 (by decide)⟩

/-- C1 counterexample: publishing pending photo `p1` succeeds and copies
the binary to `originals/p1.jpg`, but the source object is still present
at `uploads/p1.jpg` afterwards — the handler never removes it. -/
theorem C1_counterexample :
    (update_photo [pendingRec] ["uploads/p1.jpg"] "p1"
        { status := some "published" } "t1").1 = .ok 200 ⟨"p1", "published", "t1"⟩ ∧
    "uploads/p1.jpg" ∈ (update_photo [pendingRec] ["uploads/p1.jpg"] "p1"
        { status := some "published" } "t1").2.2 := by decide

/-- C1 (amended): publishing a pending photo copies the binary to
`originals/<id>.<ext>` and updates the stored key, but the source object
is left in place at its old key (no delete is issued). -/
theorem C1_publish_copies_without_delete (db : PhotoDb) (s3 : S3State)
    (pid now : String) (body : UpdateBody) (r : PhotoRecord)
    (hget : get_item db pid = some r) (hst : r.status = "pending")
    (hb : body.status = some "published") (hmem : r.originalKey ∈ s3) :
    (update_photo db s3 pid body now).1 = .ok 200 ⟨pid, "published", now⟩ ∧
    (∃ r', get_item (update_photo db s3 pid body now).2.1 pid = some r' ∧
      r'.status = "published" ∧
      r'.originalKey = "originals/" ++ pid ++ "." ++ extOf r.originalKey ∧
      r'.publishedAt = some now) ∧
    ("originals/" ++ pid ++ "." ++ extOf r.originalKey) ∈
      (update_photo db s3 pid body now).2.2 ∧
    r.originalKey ∈ (update_photo db s3 pid body now).2.2 := by
  have hne : ("published" : String) ≠ r.status := by rw [hst]; decide
  have hcopy : copy_object s3 r.originalKey
      ("originals/" ++ pid ++ "." ++ extOf r.originalKey) =
      .ok (("originals/" ++ pid ++ "." ++ extOf r.originalKey) :: s3) := by
    simp [copy_object, hmem]
  have hrun : update_photo db s3 pid body now =
      (.ok 200 ⟨pid, "published", now⟩,
       update_existing db pid (fun x =>
         { applyMetaFields body now x with
           status := "published",
           originalKey := "originals/" ++ pid ++ "." ++ extOf r.originalKey,
           publishedAt := some now }),
       ("originals/" ++ pid ++ "." ++ extOf r.originalKey) :: s3) := by
    simp [update_photo, hget, hb, hne, hcopy]
  rw [hrun]
  refine ⟨rfl, ?_, List.mem_cons_self _ _, List.mem_cons_of_mem _ hmem⟩
  have hgi : get_item (update_existing db pid (fun x =>
      { applyMetaFields body now x with
        status := "published",
        originalKey := "originals/" ++ pid ++ "." ++ extOf r.originalKey,
        publishedAt := some now })) pid =
      some { applyMetaFields body now r with
             status := "published",
             originalKey := "originals/" ++ pid ++ "." ++ extOf r.originalKey,
             publishedAt := some now } := by
    rw [get_item_update_existing db pid pid (fun x =>
          { applyMetaFields body now x with
            status := "published",
            originalKey := "originals/" ++ pid ++ "." ++ extOf r.originalKey,
            publishedAt := some now }) (fun x => rfl),
        if_pos rfl, hget]
    rfl
  exact ⟨_, hgi, rfl, rfl, rfl⟩

/-- C1 amended witness: publishing the sample pending record. -/
theorem C1_publish_copies_without_delete_witness :
    (update_photo [pendingRec] ["uploads/p1.jpg"] "p1"
        { status := some "published" } "t1").1 = .ok 200 ⟨"p1", "published", "t1"⟩ ∧
    (∃ r', get_item (update_photo [pendingRec] ["uploads/p1.jpg"] "p1"
        { status := some "published" } "t1").2.1 "p1" = some r' ∧
      r'.status = "published" ∧
      r'.originalKey = "originals/" ++ "p1" ++ "." ++ extOf "uploads/p1.jpg" ∧
      r'.publishedAt = some "t1") ∧
    ("originals/" ++ "p1" ++ "." ++ extOf "uploads/p1.jpg") ∈
      (update_photo [pendingRec] ["uploads/p1.jpg"] "p1"
        { status := some "published" } "t1").2.2 ∧
    "uploads/p1.jpg" ∈ (update_photo [pendingRec] ["uploads/p1.jpg"] "p1"
        { status := some "published" } "t1").2.2 :=
  C1_publish_copies_without_delete [pendingRec] ["uploads/p1.jpg"] "p1" "t1"
    { status := some "published" } pendingRec (by decide) (by decide) rfl (by decide)

/-- C2 (code bug): an authenticated bulk update that sets status to
`published` on a pending photo completes successfully but performs no
relocation: the record ends with status `published` while its stored key
still carries the `uploads/` prefix, violating the key-prefix/status
invariant. -/
theorem C2_bulk_status_without_relocation :
    (bulk_update_photos [pendingRec] (some "Bearer t") ["p1"]
        [("status", "published")] "t2").1 = .ok 200 ⟨["p1"], []⟩ ∧
    (get_item (bulk_update_photos [pendingRec] (some "Bearer t") ["p1"]
        [("status", "published")] "t2").2 "p1").map
      (fun r => (r.status, r.originalKey)) = some ("published", "uploads/p1.jpg") := by
  decide

/-- The bulk update expression never changes the record id. -/
theorem applyBulk_photoId (updates : List (String × String)) (now : String)
    (x : PhotoRecord) : (applyBulk updates now x).photoId = x.photoId := by
  unfold applyBulk
  cases hg : lookupField updates "gallery" <;>
  cases hs : lookupField updates "status" <;>
  cases ht : lookupField updates "title" <;>
  cases hd : lookupField updates "description" <;>
  cases ha : lookupField updates "alt" <;>
  cases hc : lookupField updates "copyright" <;>
    simp [hg, hs, ht, hd, ha, hc] <;> split <;> rfl

/-- The bulk update expression preserves an already-set `publishedAt`
(`if_not_exists` keeps the stored value). -/
theorem applyBulk_publishedAt (updates : List (String × String)) (now : String)
    (x : PhotoRecord) (t : String) (h : x.publishedAt = some t) :
    (applyBulk updates now x).publishedAt = some t := by
  unfold applyBulk
  cases hg : lookupField updates "gallery" <;>
  cases hs : lookupField updates "status" <;>
  cases ht : lookupField updates "title" <;>
  cases hd : lookupField updates "description" <;>
  cases ha : lookupField updates "alt" <;>
  cases hc : lookupField updates "copyright" <;>
    simp [hg, hs, ht, hd, ha, hc, h]

/-- Across the whole bulk loop, a record that already carries a
`publishedAt` value keeps it. -/
theorem bulk_fold_preserves_publishedAt (updates : List (String × String))
    (now pid t : String) :
    ∀ (ids : List String) (db : PhotoDb) (r : PhotoRecord),
      get_item db pid = some r → r.publishedAt = some t →
      ∃ r', get_item (ids.foldl (bulkApplyOne updates now) db) pid = some r' ∧
        r'.publishedAt = some t := by
  intro ids
  induction ids with
  | nil => exact fun db r h hp => ⟨r, h, hp⟩
  | cons id rest ih =>
    intro db r h hp
    simp only [List.foldl_cons]
    cases hid : (get_item db id).isSome with
    | true =>
      by_cases hqp : id = pid
      · subst hqp
        have hstep : get_item (bulkApplyOne updates now db id) id =
            some (applyBulk updates now r) := by
          simp only [bulkApplyOne, hid, if_true]
          rw [get_item_update_existing db id id (applyBulk updates now)
                (applyBulk_photoId updates now), if_pos rfl, h]
          rfl
        exact ih _ _ hstep (applyBulk_publishedAt updates now r t hp)
      · have hstep : get_item (bulkApplyOne updates now db id) pid = some r := by
          simp only [bulkApplyOne, hid, if_true]
          rw [get_item_update_existing db id pid (applyBulk updates now)
                (applyBulk_photoId updates now), if_neg hqp]
          exact h
        exact ih _ _ hstep hp
    | false =>
      have hqp : id ≠ pid := by
        intro he
        rw [he, h] at hid
        simp at hid
      have hstep : get_item (bulkApplyOne updates now db id) pid = some r := by
        simp only [bulkApplyOne, hid, if_false, Bool.false_eq_true]
        rw [get_item_put_item_ne]
        · exact h
        · rw [applyBulk_photoId]
          exact hqp
      exact ih _ _ hstep hp

/-- C6 counterexample: a photo that was published earlier (`publishedAt =
t1`) and has since been archived; a new single-update publish request
overwrites `publishedAt` with the fresh timestamp `t9 ≠ t1`. -/
theorem C6_counterexample :
    archivedRec.publishedAt = some "tp" ∧
    (get_item (update_photo [archivedRec] ["archive/p1.jpg"] "p1"
        { status := some "published" } "t9").2.1 "p1").map (fun r => r.publishedAt) =
      some (some "t9") ∧ ("t9" : String) ≠ "tp" := by decide

/-- C6 (amended): an already-set `publishedAt` survives every bulk update
(`if_not_exists`), and a repeated publish of a photo that is still in
`published` status through the single-update handler leaves `publishedAt`
unchanged; only a single-update publish from a non-published status
overwrites it. -/
theorem C6_publishedAt_idempotent (db : PhotoDb) (pid now t : String)
    (r : PhotoRecord) (hget : get_item db pid = some r)
    (hpub : r.publishedAt = some t) :
    (∀ (ah : Option String) (ids : List String) (updates : List (String × String)),
      ∃ r', get_item (bulk_update_photos db ah ids updates now).2 pid = some r' ∧
        r'.publishedAt = some t) ∧
    (∀ (s3 : S3State) (body : UpdateBody), body.status = some "published" →
      r.status = "published" →
      ∃ r', get_item (update_photo db s3 pid body now).2.1 pid = some r' ∧
        r'.publishedAt = some t) := by
  constructor
  · intro ah ids updates
    unfold bulk_update_photos
    by_cases h1 : is_authenticated ah = true
    · simp only [h1, not_true_eq_false, if_false]
      by_cases h2 : ids.isEmpty
      · simp only [h2, if_true]
        exact ⟨r, hget, hpub⟩
      · simp only [h2, if_false]
        by_cases h3 : updates.isEmpty
        · simp only [h3, if_true]
          exact ⟨r, hget, hpub⟩
        · simp only [h3, if_false]
          by_cases h4 : ids.length > 100
          · simp only [if_pos h4]
            exact ⟨r, hget, hpub⟩
          · simp only [if_neg h4]
            exact bulk_fold_preserves_publishedAt updates now pid t ids db r hget hpub
    · simp only [h1, not_false_eq_true, if_true]
      exact ⟨r, hget, hpub⟩
  · intro s3 body hb hs
    have hrun : update_photo db s3 pid body now =
        (.ok 200 ⟨pid, "published", now⟩,
         update_existing db pid (applyMetaFields body now), s3) := by
      simp [update_photo, hget, hb, hs]
    rw [hrun]
    refine ⟨applyMetaFields body now r, ?_, hpub⟩
    rw [get_item_update_existing db pid pid (applyMetaFields body now) (fun x => rfl),
        if_pos rfl, hget]
    rfl

/-- C6 amended witness: a published record bulk-republished and
single-update-republished keeps its original `publishedAt`. -/
theorem C6_publishedAt_idempotent_witness :
    (∃ r', get_item (bulk_update_photos [publishedRec] (some "Bearer t") ["p1"]
        [("status", "published")] "t9").2 "p1" = some r' ∧
      r'.publishedAt = some "tp") ∧
    (∃ r', get_item (update_photo [publishedRec] ["originals/p1.jpg"] "p1"
        { status := some "published" } "t9").2.1 "p1" = some r' ∧
      r'.publishedAt = some "tp") :=
  ⟨(C6_publishedAt_idempotent [publishedRec] "p1" "t9" "tp" publishedRec
      (by decide) rfl).1 (some "Bearer t") ["p1"] [("status", "published")],
   (C6_publishedAt_idempotent [publishedRec] "p1" "t9" "tp" publishedRec
      (by decide) rfl).2 ["originals/p1.jpg"] { status := some "published" } rfl rfl⟩

/-- C7 counterexample: the legacy terraform `get_photo` handler serves a
pending photo to an unauthenticated caller (it takes no credential at
all), uploader identity included. -/
theorem C7_counterexample :
    pendingRec.status = "pending" ∧
    pendingRec.uploadedBy = some "admin@example.com" ∧
    get_photo_legacy [pendingRec] none "p1" = .ok 200 { record := pendingRec } := by
  decide

/-- The photography-app URL enrichment leaves the record itself alone. -/
theorem enrich_photo_app_record (c : Option String) (p : PhotoRecord) :
    (enrich_photo_app c p).record = p := by
  cases c <;> rfl

/-- C7 (amended): the photography-app `get_photo` and `list_photos`
handlers never hand an unauthenticated caller a record whose status is not
`published`, and always strip the uploader identity from what they do hand
out.  (The legacy terraform handlers enforce neither.) -/
theorem C7_app_handlers_restrict (db : PhotoDb) (ah : Option String)
    (cloudfront : Option String) (hanon : is_authenticated ah = false) :
    (∀ pid code out, get_photo_app db ah cloudfront pid = .ok code out →
      out.record.status = "published" ∧ out.record.uploadedBy = none) ∧
    (∀ status limit code out, list_photos_app db ah cloudfront status limit = .ok code out →
      ∀ p ∈ out.photos, p.record.status = "published" ∧ p.record.uploadedBy = none) := by
  constructor
  · intro pid code out h
    unfold get_photo_app at h
    rw [hanon] at h
    cases hget : get_item db pid with
    | none => rw [hget] at h; exact absurd h (by simp)
    | some photo =>
      rw [hget] at h
      by_cases hs : photo.status = "published"
      · simp only [hs, ne_eq, not_true_eq_false, and_false, if_false,
          Bool.false_eq_true, not_false_eq_true, and_true, if_true] at h
        have hout : out = { enrich_photo_app cloudfront photo with
            record := strip_sensitive_fields false (enrich_photo_app cloudfront photo).record } := by
          cases h
          rfl
        rw [hout]
        simp [strip_sensitive_fields, enrich_photo_app_record, hs]
      · exact absurd h (by simp [hs])
  · intro status limit code out h
    unfold list_photos_app at h
    rw [hanon] at h
    by_cases hv : status = "pending" ∨ status = "published" ∨ status = "archived"
    · by_cases hs : status = "published"
      · subst hs
        simp only [hv, not_true_eq_false, if_false, ne_eq, and_false,
          Bool.false_eq_true, not_false_eq_true, and_true, if_true] at h
        have hout : out = ⟨((queryByStatus db "published" limit).map
            (enrich_photo_app cloudfront)).map (fun p =>
              { p with record := strip_sensitive_fields false p.record }),
            (((queryByStatus db "published" limit).map
              (enrich_photo_app cloudfront)).map (fun p =>
                { p with record := strip_sensitive_fields false p.record })).length⟩ := by
          cases h
          rfl
        intro p hp
        rw [hout] at hp
        simp only [List.map_map, List.mem_map, Function.comp] at hp
        obtain ⟨q, hq, hpq⟩ := hp
        have hqs : q.status = "published" :=
          of_decide_eq_true (List.mem_filter.mp (List.mem_of_mem_take hq)).2
        rw [← hpq]
        constructor
        · simp [strip_sensitive_fields, enrich_photo_app_record, hqs]
        · simp [strip_sensitive_fields, enrich_photo_app_record]
      · simp only [ne_eq] at h
        split at h
        · simp at h
        · split at h
          · simp at h
          · rename_i hcond
            rw [not_and] at hcond
            exact absurd (not_not.mp (hcond (by simp))) hs
    · simp [hv] at h

/-- C7 amended witness: with one published record, an unauthenticated get
and list both succeed and the returned payloads carry `published` status
and no uploader identity. -/
theorem C7_app_handlers_restrict_witness :
    ({ record := { publishedRec with uploadedBy := none } } : PhotoOut).record.status
        = "published" ∧
    ({ record := { publishedRec with uploadedBy := none } } : PhotoOut).record.uploadedBy
        = none :=
  (C7_app_handlers_restrict [publishedRec] none none rfl).1 "p1" 200
    { record := { publishedRec with uploadedBy := none } } (by decide)

/-- A record whose id is not a UUID, for exercising the update/delete
handlers' missing identifier validation. -/
def oddIdRec : PhotoRecord :=
  { photoId := "not-a-uuid", title := "T", alt := "A",
    status := "pending", originalKey := "uploads/not-a-uuid.jpg" }

/-- C9 counterexample: `"not-a-uuid"` fails the UUID v4 pattern, yet both
the update handler (publish) and the delete handler (archive) accept it
and use it as an object-store key component, with no validation error. -/
theorem C9_counterexample :
    matchesUuidV4 "not-a-uuid" = false ∧
    (update_photo [oddIdRec] ["uploads/not-a-uuid.jpg"] "not-a-uuid"
        { status := some "published" } "t1").1 =
      .ok 200 ⟨"not-a-uuid", "published", "t1"⟩ ∧
    "originals/not-a-uuid.jpg" ∈ (update_photo [oddIdRec] ["uploads/not-a-uuid.jpg"]
        "not-a-uuid" { status := some "published" } "t1").2.2 ∧
    (delete_photo [oddIdRec] ["uploads/not-a-uuid.jpg"] "not-a-uuid" "t1").1 =
      .ok 200 ⟨"not-a-uuid", "archived", "t1"⟩ ∧
    "archive/not-a-uuid.jpg" ∈ (delete_photo [oddIdRec] ["uploads/not-a-uuid.jpg"]
        "not-a-uuid" "t1").2.2 := by decide

/-- C9 (amended): only the create handler validates the identifier: a
create request whose `photoId` fails the UUID v4 pattern is rejected with
a `ValidationError` before any store write.  (The update and delete
handlers perform no format validation.) -/
theorem C9_create_validates_uuid (db : PhotoDb) (s3 : S3State) (body : CreateBody)
    (ub now yr : String)
    (h1 : falsy body.photoId = false) (h2 : falsy body.title = false)
    (h3 : falsy body.alt = false)
    (h4 : matchesUuidV4 (body.photoId.getD "") = false) :
    create_photo db s3 body ub now yr =
      (.err 400 "Invalid photoId format (must be UUID v4)" "ValidationError", db) := by
  simp [create_photo, h1, h2, h3, h4]

/-- C9 amended witness: a create request with photoId `"abc"`. -/
theorem C9_create_validates_uuid_witness :
    create_photo [] [] { photoId := some "abc", title := some "T", alt := some "A" }
        "admin@example.com" "t0" "2026" =
      (.err 400 "Invalid photoId format (must be UUID v4)" "ValidationError", []) :=
  C9_create_validates_uuid [] [] { photoId := some "abc", title := some "T", alt := some "A" }
    "admin@example.com" "t0" "2026" rfl rfl rfl (by decide)
